import Mathlib

/-
Verification of the teler-openai-bridge relay code.

Shallow embedding of the Python sources under app/:
  app/utils/audio_resample.py   (AudioResampler.downsample / upsample)
  app/utils/send_to_teler.py    (send_to_teler relay loop, chunk threshold 3)
  app/utils/openai_to_teler.py  (openai_to_teler relay loop, per-delta emission)
  app/utils/recv_from_teler.py  (recv_from_teler relay loop)
  app/utils/teler_to_openai.py  (teler_to_openai relay loop)
  app/api/endpoints/calls.py    (media_stream supervisor and its inline relays)

Modelling conventions:
  - Python bytes objects are List Nat (byte values 0..255).
  - PCM16 little-endian sample decoding (np.frombuffer with dtype int16) and
    encoding (ndarray.astype int16 followed by tobytes) are embedded exactly at
    the byte level; np.frombuffer raises ValueError on a byte buffer whose
    length is not a multiple of 2, which the source catches, returning the
    original buffer.
  - The external SciPy DSP kernels signal.decimate and signal.resample are
    modelled by their documented input/output contracts: decimate with factor q
    returns the filtered signal sliced with step q (length ceiling of n/q) and
    signal.resample returns exactly the requested number of samples.  The
    numeric content of the anti-aliasing / Fourier interpolation is abstracted
    (the filter stage is length-preserving and only lengths and emptiness are
    claimed anywhere in the specification under verification).
  - Base64 transport is carried in decoded form: every wire field that holds a
    base64 string in the source is represented by the byte sequence it decodes
    to, so an encode immediately followed by a decode is the identity.
-/

set_option autoImplicit false

namespace Bridge

/-- Decode a PCM16 little-endian byte sequence into signed sample values, the
way np.frombuffer with dtype int16 reads pairs of bytes.  Only called on
even-length buffers by the resampler (odd length raises in the source and is
handled by its except branch). -/
def samplesOfBytes (b : List Nat) : List Int :=
  (List.range (b.length / 2)).map fun i =>
    let v := b.getD (2 * i) 0 + 256 * b.getD (2 * i + 1) 0
    if v ≥ 32768 then (v : Int) - 65536 else (v : Int)

/-- Encode signed samples back to PCM16 little-endian bytes, the way
ndarray.astype(np.int16).tobytes() does: each sample contributes its low byte
then its high byte (value taken mod 2 to the 16). -/
def bytesOfSamples : List Int → List Nat
  | [] => []
  | s :: rest =>
    let u := (s % 65536).toNat
    u % 256 :: u / 256 :: bytesOfSamples rest

/-- Contract model of scipy.signal.decimate(x, q, n=8, ftype=iir): an order-8
anti-aliasing filter (length-preserving, numeric content abstracted) followed
by the slice x[::q], i.e. the elements at indices 0, q, 2q, ...; the result has
ceiling(n/q) samples as documented. -/
def scipyDecimate (x : List Int) (q : Nat) : List Int :=
  (List.range ((x.length + (q - 1)) / q)).map fun i => x.getD (i * q) 0

/-- Contract model of scipy.signal.resample(x, num): Fourier-method resampling
returning exactly num samples (numeric content abstracted, length as
documented). -/
def scipyResample (x : List Int) (num : Nat) : List Int :=
  (List.range num).map fun i => x.getD (i * x.length / num) 0

namespace AudioResampler

/-- self.openai_sample_rate from AudioResampler.__init__. -/
def openai_sample_rate : Nat := 24000

/-- self.teler_sample_rate from AudioResampler.__init__. -/
def teler_sample_rate : Nat := 8000

/-- AudioResampler.downsample from app/utils/audio_resample.py: convert bytes
to int16 samples, decimate by the integer factor 24000 // 8000 = 3, convert
back to bytes.  np.frombuffer raises ValueError on an odd-length buffer; the
except branch catches every exception and returns the original audio_data. -/
def downsample (audio_data : List Nat) : List Nat :=
  if audio_data.length % 2 = 0 then
    let audio_array := samplesOfBytes audio_data
    let factor := openai_sample_rate / teler_sample_rate
    bytesOfSamples (scipyDecimate audio_array factor)
  else
    audio_data

/-- AudioResampler.upsample from app/utils/audio_resample.py: convert bytes to
int16 samples, resample to int(len * 3.0) = 3 * len samples, convert back to
bytes.  As in downsample, an odd-length buffer makes np.frombuffer raise and
the except branch returns the original audio_data. -/
def upsample (audio_data : List Nat) : List Nat :=
  if audio_data.length % 2 = 0 then
    let audio_array := samplesOfBytes audio_data
    let factor := openai_sample_rate / teler_sample_rate
    bytesOfSamples (scipyResample audio_array (audio_array.length * factor))
  else
    audio_data

end AudioResampler

/-- One inbound telephony WebSocket message as consumed by the relay loops.
mtype is the top-level type field of the JSON frame; audio_b64 is the nested
data.audio_b64 field when present (carried in decoded form), or none when the
message lacks it. -/
structure TelerMsg where
  mtype : String
  audio_b64 : Option (List Nat)
deriving DecidableEq, Repr

/-- recv_from_teler, the telephony-to-AI relay loop of
app/api/endpoints/calls.py lines 177-204 (the standalone copy in
app/utils/recv_from_teler.py is the same loop): read one message at a time
until the stream ends; skip any message whose type is not audio; for an audio
message look up data.audio_b64 — a missing field raises KeyError OUTSIDE the
inner try/except, so only the task-boundary except catches it and the loop
ends — otherwise upsample the decoded bytes and send exactly one
input_audio_buffer.append message to the AI peer.  The result lists the
decoded audio payloads of the append messages, in send order. -/
def recv_from_teler : List TelerMsg → List (List Nat)
  | [] => []
  | m :: rest =>
    if m.mtype ≠ "audio" then recv_from_teler rest
    else
      match m.audio_b64 with
      | none => []
      | some pcm => AudioResampler.upsample pcm :: recv_from_teler rest

/-- Modelled from the spec: AudioResampler.decode_audio, called by the relay
loops of app/utils/send_to_teler.py and app/utils/openai_to_teler.py but
missing from the sources under src (the AudioResampler class there defines
only downsample and upsample).  Spec section 4.2: base64 decoding of an audio
payload, tolerant of padding, yielding raw PCM bytes.  Wire payloads are
carried in this embedding in decoded form, so the decode is the identity on
the byte sequence. -/
def decode_audio (audio_b64 : List Nat) : List Nat := audio_b64

/-- Modelled from the spec: AudioResampler.encode_audio, missing from src like
decode_audio.  Spec section 4.2: base64-encode raw PCM bytes.  The relays
immediately apply base64.b64decode to its result before buffering, so the
composition carried in this embedding is the identity on the byte sequence. -/
def encode_audio (pcm : List Nat) : List Nat := pcm

/-- Modelled from the spec: AudioResampler.resample_audio(data, orig_sr,
target_sr), called by app/utils/send_to_teler.py but missing from src.  Spec
section 4.1: rational resampling of a PCM16 buffer from orig_sr to target_sr;
a buffer of n samples yields n * target_sr / orig_sr samples (numeric content
abstracted as for the SciPy kernels). -/
def resample_audio (b : List Nat) (origSr targetSr : Nat) : List Nat :=
  let samples := samplesOfBytes b
  bytesOfSamples ((List.range (samples.length * targetSr / origSr)).map
    fun i => samples.getD (i * origSr / targetSr) 0)

/-- One message received from the AI peer by a relay loop: type is the JSON
type field (data.get with default unknown) and delta the decoded bytes of the
delta field (data.get with default empty string, so a missing delta is the
empty sequence, which is falsy in the source). -/
structure OpenAIEvent where
  type : String
  delta : List Nat
deriving DecidableEq, Repr

/-- One audio message sent to the telephony peer by websocket.send_json: a
JSON object with a type field — always the string audio in this code base —
the base64 payload (carried decoded) and the chunk_id. -/
structure TelerAudioOut where
  mtype : String
  audio : List Nat
  chunk_id : Nat
deriving DecidableEq, Repr

/-- Loop state of an AI-to-telephony relay: the buffered byte blocks
(audio_buffer) and the next chunk identifier (chunk_id, initialised to 1 in
every relay of this code base). -/
structure RelayState where
  buffer : List (List Nat)
  chunkId : Nat
deriving DecidableEq, Repr

/-- How a relay loop ends: the peer stream ends cleanly (the async-for loop
finishes), an exception is raised inside the loop (peer disconnect or other
error, caught by the except arms), or the task is cancelled. -/
inductive ExitMode where
  | normalEnd
  | error
  | cancelled
deriving DecidableEq, Repr

/-- Chunk threshold of send_to_teler: flush every 3 chunks, line 43 of
app/utils/send_to_teler.py. -/
def sendToTelerThreshold : Nat := 3

/-- Per-delta audio pipeline of send_to_teler lines 34-40: decode_audio, then
resample_audio from 24000 to 16000, then from 16000 to 8000, then encode_audio
and base64.b64decode back to bytes before buffering. -/
def sendToTelerBlock (delta : List Nat) : List Nat :=
  decode_audio (encode_audio
    (resample_audio (resample_audio (decode_audio delta) 24000 16000) 16000 8000))

/-- One step of the send_to_teler loop body (app/utils/send_to_teler.py lines
29-82) on one AI-peer message: an audio delta with a non-empty payload is
resampled and appended to audio_buffer, and once the buffer holds at least
threshold blocks its concatenation is sent with the current chunk_id, which is
then incremented and the buffer reset; every other message type only logs. -/
def sendToTelerStep (threshold : Nat) (s : RelayState) (ev : OpenAIEvent) :
    RelayState × List TelerAudioOut :=
  if ev.type = "response.output_audio.delta" then
    if ev.delta = [] then (s, [])
    else if (s.buffer ++ [sendToTelerBlock ev.delta]).length ≥ threshold then
      (⟨[], s.chunkId + 1⟩,
        [⟨"audio", (s.buffer ++ [sendToTelerBlock ev.delta]).flatten, s.chunkId⟩])
    else
      (⟨s.buffer ++ [sendToTelerBlock ev.delta], s.chunkId⟩, [])
  else (s, [])

/-- The send_to_teler loop over a list of AI-peer messages, returning the
final state and the audio messages sent to the telephony peer, in order. -/
def sendToTelerRun (threshold : Nat) :
    RelayState → List OpenAIEvent → RelayState × List TelerAudioOut
  | s, [] => (s, [])
  | s, ev :: rest =>
    let step := sendToTelerStep threshold s ev
    let tail := sendToTelerRun threshold step.1 rest
    (tail.1, step.2 ++ tail.2)

/-- The complete send_to_teler task (app/utils/send_to_teler.py lines 19-99)
from an initial state: run the loop over the received messages, then — ONLY on
a normal end of stream, because the flush at lines 85-94 sits after the
async-for inside the try block and every exceptional exit jumps past it to the
except arms — send the remaining buffer, concatenated and passed once more
through downsample, with the current chunk_id.  On error or cancellation the
buffered blocks are dropped. -/
def sendToTelerFinal (threshold : Nat) (s : RelayState) (evs : List OpenAIEvent)
    (mode : ExitMode) : List TelerAudioOut :=
  let r := sendToTelerRun threshold s evs
  match mode with
  | .normalEnd =>
      r.2 ++ (if r.1.buffer = [] then []
              else [⟨"audio", AudioResampler.downsample r.1.buffer.flatten, r.1.chunkId⟩])
  | .error => r.2
  | .cancelled => r.2

/-- Per-delta pipeline of openai_to_teler lines 32-38: decode_audio, downsample
from 24 kHz to 8 kHz, encode_audio, base64.b64decode before buffering. -/
def openaiToTelerBlock (delta : List Nat) : List Nat :=
  decode_audio (encode_audio (AudioResampler.downsample (decode_audio delta)))

/-- One step of the openai_to_teler loop body (app/utils/openai_to_teler.py
lines 21-65): an audio delta with a non-empty payload is appended to
audio_buffer and the whole buffer is immediately concatenated and sent with
the current chunk_id (this revision has no threshold test), after which the id
is incremented and the buffer reset.  The branch meant for barge-in compares
the type field against the string input_audio_buffer.speech_started followed
by a TRAILING SPACE, exactly as written at line 56 of the source, and only
resets the local buffer; no message of any kind is sent to the telephony peer
by that branch.  Every other message type only logs. -/
def openaiToTelerStep (s : RelayState) (ev : OpenAIEvent) :
    RelayState × List TelerAudioOut :=
  if ev.type = "response.output_audio.delta" then
    if ev.delta = [] then (s, [])
    else
      (⟨[], s.chunkId + 1⟩,
        [⟨"audio", (s.buffer ++ [openaiToTelerBlock ev.delta]).flatten, s.chunkId⟩])
  else if ev.type = "input_audio_buffer.speech_started " then
    (⟨[], s.chunkId⟩, [])
  else (s, [])

/-- The openai_to_teler loop over a list of AI-peer messages. -/
def openaiToTelerRun : RelayState → List OpenAIEvent → RelayState × List TelerAudioOut
  | s, [] => (s, [])
  | s, ev :: rest =>
    let step := openaiToTelerStep s ev
    let tail := openaiToTelerRun step.1 rest
    (tail.1, step.2 ++ tail.2)

/-- The complete openai_to_teler task (app/utils/openai_to_teler.py lines
12-86) from an initial state: run the loop, then flush the remaining buffer as
one concatenated chunk.  The flush sits in a finally block, so it runs on
EVERY exit mode — normal end of stream, error, and cancellation alike. -/
def openaiToTelerFinal (s : RelayState) (evs : List OpenAIEvent) (mode : ExitMode) :
    List TelerAudioOut :=
  let r := openaiToTelerRun s evs
  let flush := if r.1.buffer = [] then []
               else [(⟨"audio", r.1.buffer.flatten, r.1.chunkId⟩ : TelerAudioOut)]
  match mode with
  | .normalEnd => r.2 ++ flush
  | .error => r.2 ++ flush
  | .cancelled => r.2 ++ flush

/-- The byte blocks appended to audio_buffer by the openai_to_teler loop: one
per audio delta with a non-empty payload. -/
def openaiAppendedBlocks (evs : List OpenAIEvent) : List (List Nat) :=
  evs.filterMap fun ev =>
    if ev.type = "response.output_audio.delta" ∧ ev.delta ≠ [] then
      some (openaiToTelerBlock ev.delta)
    else none

/-- The list c, c+1, ..., c+n-1 of n consecutive identifiers starting at c;
used to state that emitted chunk identifiers are gap-free. -/
def consecIds (c n : Nat) : List Nat := List.range' c n

/-- Result of one run of the media_stream handler of
app/api/endpoints/calls.py (lines 113-336), observed at its exit. -/
structure MediaStreamResult where
  sentToOpenAI : List String
  awaitedResponses : Nat
  relaysStarted : Bool
  openaiClosed : Bool
  telerClosed : Bool
deriving DecidableEq, Repr

/-- media_stream handshake sequencing (app/api/endpoints/calls.py lines
147-175 and 319-336), as a function of the type field of the single response
read from the AI peer after session.update is sent: on session.created the
handler sends response.create and starts the two relay tasks; on ANY other
type it logs and returns from inside the websockets.connect context manager —
the async-with closes the AI connection and the finally at lines 333-336
closes the telephony connection — without sending anything further or starting
any task.  Both connections are likewise closed on the success path once the
relays finish. -/
def media_stream (handshakeType : String) : MediaStreamResult :=
  if handshakeType = "session.created" then
    { sentToOpenAI := ["session.update", "response.create"]
      awaitedResponses := 1
      relaysStarted := true
      openaiClosed := true
      telerClosed := true }
  else
    { sentToOpenAI := ["session.update"]
      awaitedResponses := 1
      relaysStarted := false
      openaiClosed := true
      telerClosed := true }

/-- Join semantics of the supervisor at app/api/endpoints/calls.py line 321:
await asyncio.gather(recv_task, send_task).  gather resolves only when every
awaited task has finished (the relay tasks never raise: each catches its own
exceptions and returns), so given the steps at which the two relay tasks
finish, the supervisor proceeds to close the connections at the LATER of the
two. -/
def relayJoinCompletesAt (recvExit sendExit : Nat) : Nat := max recvExit sendExit

/-- asyncio.gather cancels no sibling task when one of its awaited tasks
finishes, and media_stream contains no cancel call on either relay task. -/
def relayJoinCancelsSibling : Bool := false

end Bridge

namespace Bridge

@[simp] theorem samplesOfBytes_length (b : List Nat) :
    (samplesOfBytes b).length = b.length / 2 := by
  simp [samplesOfBytes]

@[simp] theorem bytesOfSamples_length (s : List Int) :
    (bytesOfSamples s).length = 2 * s.length := by
  induction s with
  | nil => rfl
  | cons v rest ih => simp [bytesOfSamples, ih]; omega

@[simp] theorem scipyDecimate_length (x : List Int) (q : Nat) :
    (scipyDecimate x q).length = (x.length + (q - 1)) / q := by
  simp [scipyDecimate]

@[simp] theorem scipyResample_length (x : List Int) (num : Nat) :
    (scipyResample x num).length = num := by
  simp [scipyResample]

theorem AudioResampler.downsample_length_even (b : List Nat) (h : b.length % 2 = 0) :
    (AudioResampler.downsample b).length = 2 * ((b.length / 2 + 2) / 3) := by
  simp [AudioResampler.downsample, h, AudioResampler.openai_sample_rate,
    AudioResampler.teler_sample_rate]

theorem AudioResampler.upsample_length_even (b : List Nat) (h : b.length % 2 = 0) :
    (AudioResampler.upsample b).length = 2 * (3 * (b.length / 2)) := by
  simp [AudioResampler.upsample, h, AudioResampler.openai_sample_rate,
    AudioResampler.teler_sample_rate]
  ring

theorem consecIds_append (c m n : Nat) :
    consecIds c m ++ consecIds (c + m) n = consecIds c (m + n) := by
  simp only [consecIds]
  rw [List.range'_append_1, Nat.add_comm n m]

theorem sendToTelerStep_ids (T : Nat) (s : RelayState) (ev : OpenAIEvent) :
    (sendToTelerStep T s ev).2.map TelerAudioOut.chunk_id
        = consecIds s.chunkId (sendToTelerStep T s ev).2.length ∧
      (sendToTelerStep T s ev).1.chunkId = s.chunkId + (sendToTelerStep T s ev).2.length := by
  unfold sendToTelerStep
  split
  · split
    · exact ⟨rfl, rfl⟩
    · split
      · exact ⟨rfl, rfl⟩
      · exact ⟨rfl, rfl⟩
  · exact ⟨rfl, rfl⟩

theorem sendToTelerRun_ids (T : Nat) (evs : List OpenAIEvent) :
    ∀ s : RelayState,
      (sendToTelerRun T s evs).2.map TelerAudioOut.chunk_id
          = consecIds s.chunkId (sendToTelerRun T s evs).2.length ∧
        (sendToTelerRun T s evs).1.chunkId = s.chunkId + (sendToTelerRun T s evs).2.length := by
  induction evs with
  | nil => exact fun s => ⟨rfl, rfl⟩
  | cons ev rest ih =>
    intro s
    obtain ⟨h1, h2⟩ := sendToTelerStep_ids T s ev
    obtain ⟨h3, h4⟩ := ih (sendToTelerStep T s ev).1
    simp only [sendToTelerRun]
    constructor
    · rw [List.map_append, h1, h3, h2, List.length_append]
      exact consecIds_append _ _ _
    · rw [h4, h2, List.length_append]
      omega

theorem openaiToTelerStep_ids (s : RelayState) (ev : OpenAIEvent) :
    (openaiToTelerStep s ev).2.map TelerAudioOut.chunk_id
        = consecIds s.chunkId (openaiToTelerStep s ev).2.length ∧
      (openaiToTelerStep s ev).1.chunkId = s.chunkId + (openaiToTelerStep s ev).2.length := by
  unfold openaiToTelerStep
  split
  · split
    · exact ⟨rfl, rfl⟩
    · exact ⟨rfl, rfl⟩
  · split
    · exact ⟨rfl, rfl⟩
    · exact ⟨rfl, rfl⟩

theorem openaiToTelerRun_ids (evs : List OpenAIEvent) :
    ∀ s : RelayState,
      (openaiToTelerRun s evs).2.map TelerAudioOut.chunk_id
          = consecIds s.chunkId (openaiToTelerRun s evs).2.length ∧
        (openaiToTelerRun s evs).1.chunkId = s.chunkId + (openaiToTelerRun s evs).2.length := by
  induction evs with
  | nil => exact fun s => ⟨rfl, rfl⟩
  | cons ev rest ih =>
    intro s
    obtain ⟨h1, h2⟩ := openaiToTelerStep_ids s ev
    obtain ⟨h3, h4⟩ := ih (openaiToTelerStep s ev).1
    simp only [openaiToTelerRun]
    constructor
    · rw [List.map_append, h1, h3, h2, List.length_append]
      exact consecIds_append _ _ _
    · rw [h4, h2, List.length_append]
      omega

theorem chunkIds_append_one (outs : List TelerAudioOut) (x : TelerAudioOut) (c : Nat)
    (h1 : outs.map TelerAudioOut.chunk_id = consecIds c outs.length)
    (hx : x.chunk_id = c + outs.length) :
    (outs ++ [x]).map TelerAudioOut.chunk_id = consecIds c (outs ++ [x]).length := by
  rw [List.map_append, h1, List.length_append]
  have h2 : [x].map TelerAudioOut.chunk_id = consecIds (c + outs.length) 1 := by
    simp only [List.map_cons, List.map_nil, consecIds]
    rw [hx]
    rfl
  rw [h2, consecIds_append]
  rfl

theorem sendToTelerRun_delta_counts (T : Nat) (hT : 1 ≤ T) :
    ∀ deltas : List (List Nat), (∀ d ∈ deltas, d ≠ []) →
      ∀ s : RelayState, s.buffer.length < T →
        (sendToTelerRun T s
              (deltas.map fun d => OpenAIEvent.mk "response.output_audio.delta" d)).2.length
            = (s.buffer.length + deltas.length) / T ∧
          (sendToTelerRun T s
              (deltas.map fun d => OpenAIEvent.mk "response.output_audio.delta" d)).1.buffer.length
            = (s.buffer.length + deltas.length) % T := by
  intro deltas
  induction deltas with
  | nil =>
    intro _ s hs
    simp only [List.map_nil, sendToTelerRun, List.length_nil, Nat.add_zero]
    exact ⟨(Nat.div_eq_of_lt hs).symm, (Nat.mod_eq_of_lt hs).symm⟩
  | cons d rest ih =>
    intro hne s hs
    have hd : d ≠ [] := hne d (List.mem_cons_self d rest)
    have hrest : ∀ x ∈ rest, x ≠ [] := fun x hx => hne x (List.mem_cons_of_mem d hx)
    simp only [List.map_cons, sendToTelerRun, List.length_cons]
    by_cases hfull : T ≤ s.buffer.length + 1
    · have hstep : sendToTelerStep T s (OpenAIEvent.mk "response.output_audio.delta" d)
          = (⟨[], s.chunkId + 1⟩,
              [⟨"audio", (s.buffer ++ [sendToTelerBlock d]).flatten, s.chunkId⟩]) := by
        have hc : (s.buffer ++ [sendToTelerBlock d]).length ≥ T := by
          simp only [List.length_append, List.length_cons, List.length_nil]
          omega
        simp [sendToTelerStep, hd, hc]
        omega
      rw [hstep]
      obtain ⟨ih1, ih2⟩ := ih hrest ⟨[], s.chunkId + 1⟩ (by simpa using hT)
      have ih1' : (sendToTelerRun T ⟨[], s.chunkId + 1⟩
            (rest.map fun d => OpenAIEvent.mk "response.output_audio.delta" d)).2.length
          = rest.length / T := by rw [ih1]; simp
      have ih2' : (sendToTelerRun T ⟨[], s.chunkId + 1⟩
            (rest.map fun d => OpenAIEvent.mk "response.output_audio.delta" d)).1.buffer.length
          = rest.length % T := by rw [ih2]; simp
      have hnum : s.buffer.length + (rest.length + 1) = rest.length + T := by omega
      constructor
      · simp only [List.singleton_append, List.length_cons, ih1', hnum,
          Nat.add_div_right _ (by omega : 0 < T)]
      · simp only [ih2', hnum, Nat.add_mod_right]
    · have hlt : s.buffer.length + 1 < T := by omega
      have hstep : sendToTelerStep T s (OpenAIEvent.mk "response.output_audio.delta" d)
          = (⟨s.buffer ++ [sendToTelerBlock d], s.chunkId⟩, []) := by
        have hc : ¬ (s.buffer ++ [sendToTelerBlock d]).length ≥ T := by
          simp only [List.length_append, List.length_cons, List.length_nil, ge_iff_le, not_le]
          omega
        simp [sendToTelerStep, hd, hc]
        omega
      rw [hstep]
      obtain ⟨ih1, ih2⟩ := ih hrest ⟨s.buffer ++ [sendToTelerBlock d], s.chunkId⟩
        (by simp only [List.length_append, List.length_cons, List.length_nil]; omega)
      have ih1' : (sendToTelerRun T ⟨s.buffer ++ [sendToTelerBlock d], s.chunkId⟩
            (rest.map fun d => OpenAIEvent.mk "response.output_audio.delta" d)).2.length
          = (s.buffer.length + 1 + rest.length) / T := by
        rw [ih1]; simp
      have ih2' : (sendToTelerRun T ⟨s.buffer ++ [sendToTelerBlock d], s.chunkId⟩
            (rest.map fun d => OpenAIEvent.mk "response.output_audio.delta" d)).1.buffer.length
          = (s.buffer.length + 1 + rest.length) % T := by
        rw [ih2]; simp
      have hnum : s.buffer.length + 1 + rest.length = s.buffer.length + (rest.length + 1) := by
        omega
      constructor
      · simp only [List.nil_append, ih1', hnum]
      · simp only [List.nil_append, ih2', hnum]

theorem openaiToTelerRun_flatten (evs : List OpenAIEvent)
    (hno : ∀ ev ∈ evs, ev.type ≠ "input_audio_buffer.speech_started ") :
    ∀ s : RelayState,
      ((openaiToTelerRun s evs).2.map TelerAudioOut.audio).flatten
          ++ (openaiToTelerRun s evs).1.buffer.flatten
        = s.buffer.flatten ++ (openaiAppendedBlocks evs).flatten := by
  induction evs with
  | nil =>
    intro s
    simp [openaiToTelerRun, openaiAppendedBlocks]
  | cons ev rest ih =>
    intro s
    have hev : ev.type ≠ "input_audio_buffer.speech_started " :=
      hno ev (List.mem_cons_self ev rest)
    have hrest : ∀ x ∈ rest, x.type ≠ "input_audio_buffer.speech_started " :=
      fun x hx => hno x (List.mem_cons_of_mem ev hx)
    simp only [openaiToTelerRun]
    by_cases ht : ev.type = "response.output_audio.delta"
    · by_cases hdel : ev.delta = []
      · have hstep : openaiToTelerStep s ev = (s, []) := by
          simp [openaiToTelerStep, ht, hdel]
        have hblocks : openaiAppendedBlocks (ev :: rest) = openaiAppendedBlocks rest := by
          simp [openaiAppendedBlocks, ht, hdel]
        rw [hstep, hblocks]
        simpa using ih hrest s
      · have hstep : openaiToTelerStep s ev
            = (⟨[], s.chunkId + 1⟩,
                [⟨"audio", (s.buffer ++ [openaiToTelerBlock ev.delta]).flatten, s.chunkId⟩]) := by
          simp [openaiToTelerStep, ht, hdel]
        have hblocks : openaiAppendedBlocks (ev :: rest)
            = openaiToTelerBlock ev.delta :: openaiAppendedBlocks rest := by
          simp [openaiAppendedBlocks, ht, hdel]
        rw [hstep, hblocks]
        have h := ih hrest ⟨[], s.chunkId + 1⟩
        simp only [List.flatten_nil, List.nil_append] at h
        simp only [List.singleton_append, List.map_cons, List.flatten_cons,
          List.flatten_append, List.append_assoc]
        rw [h]
        simp [List.flatten_append, List.append_assoc]
    · have hstep : openaiToTelerStep s ev = (s, []) := by
        simp [openaiToTelerStep, ht, hev]
      have hblocks : openaiAppendedBlocks (ev :: rest) = openaiAppendedBlocks rest := by
        simp [openaiAppendedBlocks, ht]
      rw [hstep, hblocks]
      simpa using ih hrest s

end Bridge

/-- Claim C7: the claim states that for every malformed input buffer — empty,
or of odd byte length — both downsample and upsample return an EMPTY byte
result.  This is false: on an odd-length buffer the except branch returns the
ORIGINAL buffer unchanged (source comment: return original audio if it fails),
not an empty one.  Counterexample at the one-byte buffer containing 7. -/
theorem c7_counterexample :
    Bridge.AudioResampler.downsample [7] = [7] ∧
      Bridge.AudioResampler.upsample [7] = [7] ∧
      ([7] : List Nat) ≠ [] := by
  refine ⟨rfl, rfl, by decide⟩

/-- Claim C7 (amended): on malformed input neither resampler fails the caller:
an empty buffer yields an empty buffer, and an odd-byte-length buffer is
returned unchanged (the decode exception is caught and the original bytes are
returned); in both cases the input itself is returned. -/
theorem c7_malformed_input_returns_input (b : List Nat)
    (h : b = [] ∨ b.length % 2 = 1) :
    Bridge.AudioResampler.downsample b = b ∧ Bridge.AudioResampler.upsample b = b := by
  rcases h with h | h
  · subst h; exact ⟨rfl, rfl⟩
  · have h2 : ¬ b.length % 2 = 0 := by omega
    constructor
    · simp [Bridge.AudioResampler.downsample, h2]
    · simp [Bridge.AudioResampler.upsample, h2]

/-- Claim C7 witness: the amended theorem applied at the concrete odd buffer
containing the single byte 7. -/
theorem c7_witness :
    Bridge.AudioResampler.downsample [7] = [7] ∧ Bridge.AudioResampler.upsample [7] = [7] :=
  c7_malformed_input_returns_input [7] (Or.inr (by decide))

/-- Claim C9: for every valid (even byte length) PCM16 buffer x of n samples,
downsample(upsample(x)) has exactly n samples and upsample(downsample(x)) has
exactly 3 * ceiling(n/3) samples — signal length is preserved within the
integer ratio 3 in both round-trip directions. -/
theorem c9_roundtrip_lengths (b : List Nat) (h : b.length % 2 = 0) :
    (Bridge.samplesOfBytes
        (Bridge.AudioResampler.downsample (Bridge.AudioResampler.upsample b))).length
      = b.length / 2 ∧
    (Bridge.samplesOfBytes
        (Bridge.AudioResampler.upsample (Bridge.AudioResampler.downsample b))).length
      = 3 * ((b.length / 2 + 2) / 3) := by
  have hup : (Bridge.AudioResampler.upsample b).length = 2 * (3 * (b.length / 2)) :=
    Bridge.AudioResampler.upsample_length_even b h
  have hupEven : (Bridge.AudioResampler.upsample b).length % 2 = 0 := by omega
  have hdown : (Bridge.AudioResampler.downsample b).length = 2 * ((b.length / 2 + 2) / 3) :=
    Bridge.AudioResampler.downsample_length_even b h
  have hdownEven : (Bridge.AudioResampler.downsample b).length % 2 = 0 := by omega
  constructor
  · have := Bridge.AudioResampler.downsample_length_even _ hupEven
    rw [Bridge.samplesOfBytes_length, this, hup]
    omega
  · have := Bridge.AudioResampler.upsample_length_even _ hdownEven
    rw [Bridge.samplesOfBytes_length, this, hdown]
    omega

/-- Claim C9 witness: the round-trip length theorem applied at the concrete
4-byte (2-sample) buffer 1,2,3,4: the down-up direction gives 2 samples and the
up-down direction gives 3 samples. -/
theorem c9_witness :
    (Bridge.samplesOfBytes
        (Bridge.AudioResampler.downsample (Bridge.AudioResampler.upsample [1, 2, 3, 4]))).length
      = 2 ∧
    (Bridge.samplesOfBytes
        (Bridge.AudioResampler.upsample (Bridge.AudioResampler.downsample [1, 2, 3, 4]))).length
      = 3 :=
  c9_roundtrip_lengths [1, 2, 3, 4] (by decide)

/-- Claim C5: for every sequence of inbound telephony audio frames (each of
type audio, each carrying a present, even-byte-length PCM16 payload), the relay
sends exactly one input_audio_buffer.append message per frame to the AI peer,
in arrival order, and each append's decoded sample count is exactly 3 times
the frame's 8 kHz sample count. -/
theorem c5_one_append_per_frame (frames : List Bridge.TelerMsg)
    (h : ∀ f ∈ frames, f.mtype = "audio" ∧ f.audio_b64 ≠ none ∧
      (f.audio_b64.getD []).length % 2 = 0) :
    Bridge.recv_from_teler frames
        = frames.map (fun f => Bridge.AudioResampler.upsample (f.audio_b64.getD [])) ∧
      ∀ f ∈ frames,
        (Bridge.samplesOfBytes (Bridge.AudioResampler.upsample (f.audio_b64.getD []))).length
          = 3 * (Bridge.samplesOfBytes (f.audio_b64.getD [])).length := by
  constructor
  · induction frames with
    | nil => rfl
    | cons f rest ih =>
      obtain ⟨h1, h2, _⟩ := h f (List.mem_cons_self f rest)
      match hf : f.audio_b64 with
      | none => exact absurd hf h2
      | some pcm =>
        simp only [Bridge.recv_from_teler, h1, hf, List.map_cons, Option.getD_some,
          ne_eq, not_true_eq_false, if_false]
        exact congrArg _ (ih fun g hg => h g (List.mem_cons_of_mem f hg))
  · intro f hf
    obtain ⟨_, _, heven⟩ := h f hf
    have := Bridge.AudioResampler.upsample_length_even _ heven
    rw [Bridge.samplesOfBytes_length, this, Bridge.samplesOfBytes_length]
    omega

/-- Claim C5 witness: three concrete audio frames of two samples each yield
exactly three appends, in order, and the first append holds 6 = 3 times 2
samples. -/
theorem c5_witness :
    Bridge.recv_from_teler
        [⟨"audio", some [1, 0, 2, 0]⟩, ⟨"audio", some [3, 0, 4, 0]⟩,
          ⟨"audio", some [5, 0, 6, 0]⟩]
      = [Bridge.AudioResampler.upsample [1, 0, 2, 0],
          Bridge.AudioResampler.upsample [3, 0, 4, 0],
          Bridge.AudioResampler.upsample [5, 0, 6, 0]] ∧
    (Bridge.samplesOfBytes (Bridge.AudioResampler.upsample [1, 0, 2, 0])).length
      = 3 * (Bridge.samplesOfBytes [1, 0, 2, 0]).length := by
  have h := c5_one_append_per_frame
    [⟨"audio", some [1, 0, 2, 0]⟩, ⟨"audio", some [3, 0, 4, 0]⟩, ⟨"audio", some [5, 0, 6, 0]⟩]
    (by decide)
  exact ⟨by simpa using h.1, h.2 ⟨"audio", some [1, 0, 2, 0]⟩ (by simp)⟩

/-- Claim C10: for every inbound telephony message whose type is audio but
which lacks the nested data.audio_b64 field, the relay loop terminates: the
key lookup raises outside the per-message error handler, the exception is
caught only at the task boundary, and no message after the malformed one is
processed — the outputs are exactly those of the messages before it, whatever
comes after it. -/
theorem c10_missing_field_terminates_loop (pre post : List Bridge.TelerMsg)
    (bad : Bridge.TelerMsg) (hb1 : bad.mtype = "audio") (hb2 : bad.audio_b64 = none)
    (hpre : ∀ m ∈ pre, m.mtype = "audio" → m.audio_b64 ≠ none) :
    Bridge.recv_from_teler (pre ++ bad :: post) = Bridge.recv_from_teler pre := by
  induction pre with
  | nil =>
    simp only [List.nil_append, Bridge.recv_from_teler, hb1, hb2, ne_eq,
      not_true_eq_false, if_false]
  | cons m rest ih =>
    by_cases hm : m.mtype = "audio"
    · match hf : m.audio_b64 with
      | none => exact absurd hf (hpre m (List.mem_cons_self m rest) hm)
      | some pcm =>
        simp only [List.cons_append, Bridge.recv_from_teler, hm, hf, ne_eq,
          not_true_eq_false, if_false]
        exact congrArg _ (ih fun g hg => hpre g (List.mem_cons_of_mem m hg))
    · simp only [List.cons_append, Bridge.recv_from_teler, hm, ne_eq,
        not_false_eq_true, if_true]
      exact ih fun g hg => hpre g (List.mem_cons_of_mem m hg)

/-- Claim C10 witness: with one well-formed audio frame before the malformed
one and two messages after it, the relay emits exactly the one append of the
first frame and processes nothing after the malformed message. -/
theorem c10_witness :
    Bridge.recv_from_teler
        [⟨"audio", some [1, 0]⟩, ⟨"audio", none⟩, ⟨"audio", some [2, 0]⟩, ⟨"status", none⟩]
      = Bridge.recv_from_teler [⟨"audio", some [1, 0]⟩] :=
  c10_missing_field_terminates_loop [⟨"audio", some [1, 0]⟩]
    [⟨"audio", some [2, 0]⟩, ⟨"status", none⟩] ⟨"audio", none⟩ rfl rfl (by decide)

/-- Claim C1: the claim states that every input_audio_buffer.speech_started
event makes the AI-to-telephony relay discard its buffered audio and emit a
buffer-clear instruction to the telephony peer, exactly once per event.  The
code does neither: the handler at line 56 of app/utils/openai_to_teler.py
compares the type against the event name with a TRAILING SPACE, so the real
event matches no branch and leaves the buffer untouched; and even the
misspelled branch only resets the local buffer — no clear message exists
anywhere in the code (the run below, ending after the misspelled event, sends
nothing at all and silently discards the two buffered blocks). -/
theorem c1_speech_started_is_ignored :
    Bridge.openaiToTelerStep ⟨[[1, 2], [3, 4]], 5⟩
        ⟨"input_audio_buffer.speech_started", []⟩
        = (⟨[[1, 2], [3, 4]], 5⟩, []) ∧
      Bridge.openaiToTelerStep ⟨[[1, 2], [3, 4]], 5⟩
        ⟨"input_audio_buffer.speech_started ", []⟩
        = (⟨[], 5⟩, []) ∧
      Bridge.openaiToTelerFinal ⟨[[1, 2], [3, 4]], 5⟩
          [⟨"input_audio_buffer.speech_started ", []⟩] Bridge.ExitMode.normalEnd
        = [] :=
  ⟨rfl, rfl, rfl⟩

/-- Claim C2: in media_stream, after sending session.update the supervisor
awaits exactly one response from the AI peer; the relay tasks are started and
response.create is sent only if that response has type session.created; for
every other response type the handler returns without starting any relay task
and both connections are closed. -/
theorem c2_handshake_gates_relay (t : String) :
    (Bridge.media_stream t).awaitedResponses = 1 ∧
      ((Bridge.media_stream t).relaysStarted = true ↔ t = "session.created") ∧
      ("response.create" ∈ (Bridge.media_stream t).sentToOpenAI ↔ t = "session.created") ∧
      (Bridge.media_stream t).sentToOpenAI.head? = some "session.update" ∧
      (t ≠ "session.created" →
        (Bridge.media_stream t).relaysStarted = false ∧
          (Bridge.media_stream t).openaiClosed = true ∧
          (Bridge.media_stream t).telerClosed = true) := by
  by_cases h : t = "session.created" <;> simp [Bridge.media_stream, h]

/-- Claim C2 witness: the handshake theorem applied at the concrete failure
response type error: no relay is started and both connections are closed. -/
theorem c2_witness :
    (Bridge.media_stream "error").relaysStarted = false ∧
      (Bridge.media_stream "error").openaiClosed = true ∧
      (Bridge.media_stream "error").telerClosed = true :=
  (c2_handshake_gates_relay "error").2.2.2.2 (by decide)

/-- Claim C3: for the send_to_teler relay with configured chunk threshold
T ≥ 1 (T = 3 at line 43 of the source), after N audio-delta blocks have been
appended and before any flush, exactly N / T chunks have been emitted to the
telephony peer, the buffer holds exactly N % T residual blocks, and the
buffer count stays below the threshold. -/
theorem c3_chunk_threshold_counts (T : Nat) (hT : 1 ≤ T) (deltas : List (List Nat))
    (hne : ∀ d ∈ deltas, d ≠ []) :
    (Bridge.sendToTelerRun T ⟨[], 1⟩
          (deltas.map fun d => Bridge.OpenAIEvent.mk "response.output_audio.delta" d)).2.length
        = deltas.length / T ∧
      (Bridge.sendToTelerRun T ⟨[], 1⟩
          (deltas.map fun d =>
            Bridge.OpenAIEvent.mk "response.output_audio.delta" d)).1.buffer.length
        = deltas.length % T ∧
      (Bridge.sendToTelerRun T ⟨[], 1⟩
          (deltas.map fun d =>
            Bridge.OpenAIEvent.mk "response.output_audio.delta" d)).1.buffer.length
        < T := by
  obtain ⟨h1, h2⟩ := Bridge.sendToTelerRun_delta_counts T hT deltas hne ⟨[], 1⟩ (by simpa using hT)
  have h1' := h1
  have h2' := h2
  simp only [List.length_nil, Nat.zero_add] at h1' h2'
  exact ⟨h1', h2', by rw [h2']; exact Nat.mod_lt _ (by omega)⟩

/-- Claim C3 witness: the counting theorem applied with threshold 3 to seven
concrete one-sample deltas: two chunks emitted, one residual block, count
below threshold. -/
theorem c3_witness :
    (Bridge.sendToTelerRun 3 ⟨[], 1⟩
          ((List.replicate 7 ([0, 0] : List Nat)).map
            fun d => Bridge.OpenAIEvent.mk "response.output_audio.delta" d)).2.length
        = (List.replicate 7 ([0, 0] : List Nat)).length / 3 ∧
      (Bridge.sendToTelerRun 3 ⟨[], 1⟩
          ((List.replicate 7 ([0, 0] : List Nat)).map
            fun d => Bridge.OpenAIEvent.mk "response.output_audio.delta" d)).1.buffer.length
        = (List.replicate 7 ([0, 0] : List Nat)).length % 3 ∧
      (Bridge.sendToTelerRun 3 ⟨[], 1⟩
          ((List.replicate 7 ([0, 0] : List Nat)).map
            fun d => Bridge.OpenAIEvent.mk "response.output_audio.delta" d)).1.buffer.length
        < 3 :=
  c3_chunk_threshold_counts 3 (by omega) (List.replicate 7 [0, 0]) (by decide)

/-- Claim C4: the claim states that the chunk_id values on audio messages sent
to the telephony peer form a consecutive gap-free sequence and that the first
two emitted chunks carry chunk_id 0 and then 1.  The consecutive part holds,
but chunk_id is initialised to 1 at line 20 of app/utils/send_to_teler.py (and
line 17 of app/utils/openai_to_teler.py), not 0: a send_to_teler run over six
audio deltas emits chunk ids 1 and then 2. -/
theorem c4_counterexample :
    (Bridge.sendToTelerFinal 3 ⟨[], 1⟩
            (List.replicate 6 (Bridge.OpenAIEvent.mk "response.output_audio.delta" [0, 0]))
            Bridge.ExitMode.normalEnd).map Bridge.TelerAudioOut.chunk_id
        = [1, 2] ∧ ([1, 2] : List Nat) ≠ [0, 1] :=
  ⟨rfl, by decide⟩

/-- Claim C4 (amended): within one call the chunk_id values on the audio
messages sent to the telephony peer — trailing flushed chunk included — form
the consecutive gap-free sequence 1, 2, 3, ..., so the first two emitted
chunks carry chunk_id 1 and then 2 (not 0 and 1); this holds for both
AI-to-telephony relay revisions, any threshold and every exit mode. -/
theorem c4_chunk_ids_consecutive (T : Nat) (evs : List Bridge.OpenAIEvent)
    (mode : Bridge.ExitMode) :
    (Bridge.sendToTelerFinal T ⟨[], 1⟩ evs mode).map Bridge.TelerAudioOut.chunk_id
        = Bridge.consecIds 1 (Bridge.sendToTelerFinal T ⟨[], 1⟩ evs mode).length ∧
      (Bridge.openaiToTelerFinal ⟨[], 1⟩ evs mode).map Bridge.TelerAudioOut.chunk_id
        = Bridge.consecIds 1 (Bridge.openaiToTelerFinal ⟨[], 1⟩ evs mode).length := by
  obtain ⟨hs1, hs2⟩ := Bridge.sendToTelerRun_ids T evs ⟨[], 1⟩
  obtain ⟨ho1, ho2⟩ := Bridge.openaiToTelerRun_ids evs ⟨[], 1⟩
  constructor
  · cases mode with
    | normalEnd =>
      simp only [Bridge.sendToTelerFinal]
      by_cases hbuf : (Bridge.sendToTelerRun T ⟨[], 1⟩ evs).1.buffer = []
      · simpa [hbuf] using hs1
      · simp only [if_neg hbuf]
        exact Bridge.chunkIds_append_one _ _ 1 hs1 hs2
    | error => exact hs1
    | cancelled => exact hs1
  · cases mode with
    | normalEnd =>
      simp only [Bridge.openaiToTelerFinal]
      by_cases hbuf : (Bridge.openaiToTelerRun ⟨[], 1⟩ evs).1.buffer = []
      · simpa [hbuf] using ho1
      · simp only [if_neg hbuf]
        exact Bridge.chunkIds_append_one _ _ 1 ho1 ho2
    | error =>
      simp only [Bridge.openaiToTelerFinal]
      by_cases hbuf : (Bridge.openaiToTelerRun ⟨[], 1⟩ evs).1.buffer = []
      · simpa [hbuf] using ho1
      · simp only [if_neg hbuf]
        exact Bridge.chunkIds_append_one _ _ 1 ho1 ho2
    | cancelled =>
      simp only [Bridge.openaiToTelerFinal]
      by_cases hbuf : (Bridge.openaiToTelerRun ⟨[], 1⟩ evs).1.buffer = []
      · simpa [hbuf] using ho1
      · simp only [if_neg hbuf]
        exact Bridge.chunkIds_append_one _ _ 1 ho1 ho2

/-- Claim C6: the claim states that whenever the AI-to-telephony relay loop
ends — normal end of stream, cancellation, or error — buffered blocks are
concatenated and sent as one final chunk.  For send_to_teler that fails off
the normal path: with threshold 3, one processed delta leaves one buffered
block, and on an error exit the task sends nothing at all — the flush after
the async-for is skipped by the exception and the block is dropped. -/
theorem c6_counterexample :
    Bridge.sendToTelerFinal 3 ⟨[], 1⟩
        [Bridge.OpenAIEvent.mk "response.output_audio.delta" [0, 0, 0, 0, 0, 0]]
        Bridge.ExitMode.error = [] ∧
      (Bridge.sendToTelerRun 3 ⟨[], 1⟩
          [Bridge.OpenAIEvent.mk "response.output_audio.delta" [0, 0, 0, 0, 0, 0]]).1.buffer
        ≠ [] :=
  ⟨rfl, by decide⟩

/-- Claim C6 (amended): openai_to_teler flushes in a finally block, so on
every exit mode — normal end, error, cancellation — the bytes sent to the
telephony peer are exactly the initially buffered bytes followed by the bytes
of every appended block (in runs without the misspelled speech-started event,
whose branch discards the buffer by design): trailing buffered audio is never
dropped by openai_to_teler.  send_to_teler flushes its remaining buffer, as
one final downsampled chunk, only on a normal end of stream. -/
theorem c6_flush_on_every_exit (s : Bridge.RelayState) (evs : List Bridge.OpenAIEvent)
    (mode : Bridge.ExitMode)
    (hno : ∀ ev ∈ evs, ev.type ≠ "input_audio_buffer.speech_started ") :
    ((Bridge.openaiToTelerFinal s evs mode).map Bridge.TelerAudioOut.audio).flatten
        = s.buffer.flatten ++ (Bridge.openaiAppendedBlocks evs).flatten ∧
      ((Bridge.sendToTelerRun 3 s evs).1.buffer ≠ [] →
        Bridge.sendToTelerFinal 3 s evs Bridge.ExitMode.normalEnd
          = (Bridge.sendToTelerRun 3 s evs).2
              ++ [⟨"audio",
                    Bridge.AudioResampler.downsample
                      (Bridge.sendToTelerRun 3 s evs).1.buffer.flatten,
                    (Bridge.sendToTelerRun 3 s evs).1.chunkId⟩]) := by
  have h := Bridge.openaiToTelerRun_flatten evs hno s
  constructor
  · cases mode with
    | normalEnd =>
      simp only [Bridge.openaiToTelerFinal]
      by_cases hbuf : (Bridge.openaiToTelerRun s evs).1.buffer = []
      · simpa [hbuf] using h
      · simp only [if_neg hbuf, List.map_append, List.flatten_append]
        simpa using h
    | error =>
      simp only [Bridge.openaiToTelerFinal]
      by_cases hbuf : (Bridge.openaiToTelerRun s evs).1.buffer = []
      · simpa [hbuf] using h
      · simp only [if_neg hbuf, List.map_append, List.flatten_append]
        simpa using h
    | cancelled =>
      simp only [Bridge.openaiToTelerFinal]
      by_cases hbuf : (Bridge.openaiToTelerRun s evs).1.buffer = []
      · simpa [hbuf] using h
      · simp only [if_neg hbuf, List.map_append, List.flatten_append]
        simpa using h
  · intro hbuf
    simp [Bridge.sendToTelerFinal, hbuf]

/-- Claim C6 witness: the amended theorem applied at a concrete run — an
initial buffered block 9, 9 and one audio delta — exiting with an error: the
emitted bytes still contain the buffered block followed by the appended one,
and with a non-empty remaining buffer the normal-end run of send_to_teler
appends exactly one final downsampled chunk. -/
theorem c6_witness :
    ((Bridge.openaiToTelerFinal ⟨[[9, 9]], 1⟩
            [Bridge.OpenAIEvent.mk "response.output_audio.delta" [0, 0]]
            Bridge.ExitMode.error).map Bridge.TelerAudioOut.audio).flatten
        = (Bridge.RelayState.mk [[9, 9]] 1).buffer.flatten
            ++ (Bridge.openaiAppendedBlocks
                  [Bridge.OpenAIEvent.mk "response.output_audio.delta" [0, 0]]).flatten ∧
      Bridge.sendToTelerFinal 3 ⟨[[9, 9]], 1⟩
          [Bridge.OpenAIEvent.mk "response.output_audio.delta" [0, 0]]
          Bridge.ExitMode.normalEnd
        = (Bridge.sendToTelerRun 3 ⟨[[9, 9]], 1⟩
              [Bridge.OpenAIEvent.mk "response.output_audio.delta" [0, 0]]).2
            ++ [⟨"audio",
                  Bridge.AudioResampler.downsample
                    (Bridge.sendToTelerRun 3 ⟨[[9, 9]], 1⟩
                        [Bridge.OpenAIEvent.mk "response.output_audio.delta" [0, 0]]).1.buffer.flatten,
                  (Bridge.sendToTelerRun 3 ⟨[[9, 9]], 1⟩
                      [Bridge.OpenAIEvent.mk "response.output_audio.delta" [0, 0]]).1.chunkId⟩] := by
  have h := c6_flush_on_every_exit ⟨[[9, 9]], 1⟩
    [Bridge.OpenAIEvent.mk "response.output_audio.delta" [0, 0]]
    Bridge.ExitMode.error (by decide)
  exact ⟨h.1, h.2 (by decide)⟩

/-- Claim C8: the claim states that when either relay task terminates the
supervisor cancels the sibling task and proceeds to close both connections
rather than waiting for both.  The code instead awaits asyncio.gather over
both tasks and cancels nothing: with the receive task finishing at step 1 and
the send task at step 5, the supervisor proceeds only at step 5, the later of
the two, and no sibling cancellation exists. -/
theorem c8_supervisor_waits_for_both :
    Bridge.relayJoinCompletesAt 1 5 = 5 ∧
      Bridge.relayJoinCompletesAt 1 5 ≠ min 1 5 ∧
      Bridge.relayJoinCancelsSibling = false := by
  decide
